import Mathlib

/-!
Shallow embedding of `hyper.go` (package hyper), a fluent builder around an
HTTP client.  Go's mutating methods on `*Request` are modelled as pure state
transformers `Request → Request`; machine-level concerns (the network, real
`context.Context` values, `io.ReadCloser` streams) are modelled by explicit
data: a transport is a function from requests to `Except` responses, a body
stream is its read-all result plus its close result.  Errors are strings
(the text Go's `error` values carry).
-/

/-- Go `error` values, modelled by their message text. -/
abbrev Err := String

/-- An opaque tag standing for a `context.Context` value. -/
abbrev Ctx := Nat

deriving instance DecidableEq for Except

/-- An `io.ReadCloser` body, modelled by the outcome of reading it to the end
(`content`) and the outcome of closing it (`closeErr`).  `io.NopCloser` over a
`bytes.Buffer` (as built by `Json`, hyper.go:153-154) reads its bytes without
error and closes without error. -/
structure BodyStream where
  content : Except Err String
  closeErr : Option Err
deriving Repr, DecidableEq

/-- `http.Header` (hyper.go:59): a map from header key to its list of values.
Modelled as an association list with unique keys.  Go canonicalises MIME
header keys in `Set`/`Add`; every claim quantifies over a single key, so keys
are modelled post-canonicalisation. -/
abbrev Header := List (String × List String)

/-- `http.Header.Get`-style lookup of all values stored for a key. -/
def headerGet : Header → String → List String
  | [], _ => []
  | (k0, vs0) :: rest, k => if k0 = k then vs0 else headerGet rest k

/-- `http.Header.Set` (hyper.go:106): replaces any prior values for the key
with the single given value. -/
def headerSet : Header → String → String → Header
  | [], k, v => [(k, [v])]
  | (k0, vs0) :: rest, k, v =>
      if k0 = k then (k0, [v]) :: rest else (k0, vs0) :: headerSet rest k v

/-- `http.Header.Add` (hyper.go:108): appends the value to those already
stored for the key. -/
def headerAdd : Header → String → String → Header
  | [], k, v => [(k, [v])]
  | (k0, vs0) :: rest, k, v =>
      if k0 = k then (k0, vs0 ++ [v]) :: rest else (k0, vs0) :: headerAdd rest k v

/-- `net/url.URL`, keeping only what hyper.go touches: the part before the
query (opaque here) and the raw query string. -/
structure Url where
  rest : String
  rawQuery : String
deriving Repr, DecidableEq

/-- `net/url.Parse` (hyper.go:131), modelled by its documented behaviour on
the fragment this code exercises: it fails on ASCII control characters in the
URL and otherwise splits the string at the first `?` into the base part and
the raw query. -/
def urlParse (s : String) : Except Err Url :=
  if s.toList.any (fun c => c.toNat < 32) then
    .error "net/url: invalid control character in URL"
  else
    match s.splitOn "?" with
    | [] => .ok ⟨s, ""⟩
    | r :: qs => .ok ⟨r, String.intercalate "?" qs⟩

/-- The net effect of `URL.Query() / Values.Add / Values.Encode`
(hyper.go:120-122): the new key/value pair is added to the encoded query
string alongside the pairs already present.  Percent-escaping and Encode's
key sorting are abstracted away; no claim depends on them. -/
def addQueryPair (rawQuery k v : String) : String :=
  if rawQuery = "" then k ++ "=" ++ v else rawQuery ++ "&" ++ k ++ "=" ++ v

/-- `http.Request`, keeping the fields hyper.go reads or writes. -/
structure HttpRequest where
  method : String
  url : Option Url
  header : Header
  body : Option BodyStream
  ctx : Ctx
deriving Repr, DecidableEq

instance : Inhabited HttpRequest :=
  ⟨{ method := "", url := none, header := [], body := none, ctx := 0 }⟩

/-- `http.Response`, keeping the fields hyper.go reads. -/
structure HttpResponse where
  statusCode : Nat
  status : String
  body : BodyStream
deriving Repr, DecidableEq

/-- The `Clienter` capability (hyper.go:14-16): one operation sending a
request and returning a response or failing. -/
abbrev Clienter := HttpRequest → Except Err HttpResponse

/-- The builder (hyper.go:27-32).  `client = none` models a nil `Clienter`
field, `err` the deferred error, `onResponseCheck` the optional hook. -/
structure Request where
  client : Option Clienter
  request : HttpRequest
  err : Option Err
  onResponseCheck : Option (HttpResponse → Option Err)

/-- The response wrapper (hyper.go:34-36). -/
structure Response where
  resp : HttpResponse
deriving Repr, DecidableEq

/-- `Check200` (hyper.go:20-25). -/
def Check200 (r : HttpResponse) : Option Err :=
  if r.statusCode ≠ 200 then
    some ("[" ++ toString r.statusCode ++ "] " ++ r.status)
  else
    none

/-- `New` (hyper.go:56-62): fresh builder, empty header map, everything else
at its zero value. -/
def New : Request :=
  { client := none
    request := { method := "", url := none, header := [], body := none, ctx := 0 }
    err := none
    onResponseCheck := none }

/-- `OnResponseCheck` (hyper.go:38-41). -/
def Request.OnResponseCheck (r : Request) (f : HttpResponse → Option Err) : Request :=
  { r with onResponseCheck := some f }

/-- `Get` (hyper.go:64-67). -/
def Request.Get (r : Request) : Request :=
  { r with request := { r.request with method := "GET" } }

/-- `Post` (hyper.go:69-72). -/
def Request.Post (r : Request) : Request :=
  { r with request := { r.request with method := "POST" } }

/-- `Delete` (hyper.go:74-77). -/
def Request.Delete (r : Request) : Request :=
  { r with request := { r.request with method := "DELETE" } }

/-- `Put` (hyper.go:79-82). -/
def Request.Put (r : Request) : Request :=
  { r with request := { r.request with method := "PUT" } }

/-- `Patch` (hyper.go:84-87). -/
def Request.Patch (r : Request) : Request :=
  { r with request := { r.request with method := "PATCH" } }

/-- `Options` (hyper.go:89-92). -/
def Request.Options (r : Request) : Request :=
  { r with request := { r.request with method := "OPTIONS" } }

/-- `SetClient` (hyper.go:94-97). -/
def Request.SetClient (r : Request) (c : Clienter) : Request :=
  { r with client := some c }

/-- The loop body of `SetHeader` (hyper.go:104-111): the first value goes
through `Header.Set`, every later value through `Header.Add`. -/
def applyHeaderValues (hd : Header) (k v : String) (vs : List String) : Header :=
  vs.foldl (fun h v2 => headerAdd h k v2) (headerSet hd k v)

/-- `SetHeader` (hyper.go:99-113).  Zero values stores a deferred error
quoting the key (Go's `%q` verb, modelled as plain double quotes); otherwise
the first value replaces and the rest append. -/
def Request.SetHeader (r : Request) (key : String) (values : List String) : Request :=
  match values with
  | [] => { r with err := some ("missing values for set header \"" ++ key ++ "\"") }
  | v :: vs =>
      { r with request := { r.request with header := applyHeaderValues r.request.header key v vs } }

/-- `SetQueryParam` (hyper.go:115-124): deferred error on a nil URL,
otherwise the pair is added into the re-encoded query string. -/
def Request.SetQueryParam (r : Request) (key value : String) : Request :=
  match r.request.url with
  | none => { r with err := some "cannot add query param to nil url" }
  | some u =>
      { r with request :=
          { r.request with url := some { u with rawQuery := addQueryPair u.rawQuery key value } } }

/-- `GetHeader` (hyper.go:126-128). -/
def Request.GetHeader (r : Request) : Header :=
  r.request.header

/-- `Url` (hyper.go:130-138): parse failure stores a deferred error, success
stores the parsed URL. -/
def Request.Url (r : Request) (u : String) : Request :=
  match urlParse u with
  | .error e => { r with err := some e }
  | .ok res => { r with request := { r.request with url := some res } }

/-- `Body` (hyper.go:140-143). -/
def Request.Body (r : Request) (rc : BodyStream) : Request :=
  { r with request := { r.request with body := some rc } }

/-- `Json` (hyper.go:145-157): sets the content-type header, marshals the
value (the abstract `marshal` stands for `json.Marshal`), defers a marshal
error, and otherwise stores the bytes wrapped in a `NopCloser` (reads its
content without error, closes without error). -/
def Request.Json {V : Type} (marshal : V → Except Err String) (r : Request) (body : V) : Request :=
  let r1 := r.SetHeader "content-type" ["application/json"]
  match marshal body with
  | .error e => { r1 with err := some e }
  | .ok data =>
      { r1 with request :=
          { r1.request with body := some { content := .ok data, closeErr := none } } }

/-- `Context` (hyper.go:195-198): rebinds the underlying request to the given
context (`http.Request.WithContext` returns a copy with the new context). -/
def Request.Context (r : Request) (ctx : Ctx) : Request :=
  { r with request := { r.request with ctx := ctx } }

/-- `http.Request.Clone(ctx)` as used at hyper.go:206: a deep copy of the
request (headers included) rebound to `ctx`.  In this pure value model the
copy is the value itself with the context replaced; the deep-copy (no shared
header map) aspect is modelled separately by the heap model below. -/
def cloneHttpRequest (q : HttpRequest) (ctx : Ctx) : HttpRequest :=
  { q with ctx := ctx }

/-- `CloneWithContext` (hyper.go:204-210): the struct literal carries over
`request` (cloned), `err` and `client`; `onResponseCheck` is omitted, so it
takes its zero value nil. -/
def Request.CloneWithContext (r : Request) (ctx : Ctx) : Request :=
  { request := cloneHttpRequest r.request ctx
    err := r.err
    client := r.client
    onResponseCheck := none }

/-- `Clone` (hyper.go:200-202). -/
def Request.Clone (r : Request) : Request :=
  r.CloneWithContext r.request.ctx

/-- Result of `Do`: the returned `(*Response, error)` pair plus an
instrumentation counter of how many times the transport (`client.Do`) was
invoked — 0 or 1 here, since hyper never retries. -/
structure DoOutcome where
  response : Option Response
  error : Option Err
  transportCalls : Nat
deriving DecidableEq

/-- `Do` (hyper.go:175-193).  `d` is the process-wide `defaultClient`
(hyper.go:18), used when no client was injected.  A pending deferred error
returns immediately without touching the transport; a transport error is
passed through; a failing response check discards the response and returns
the hook's error. -/
def Request.Do (d : Clienter) (r : Request) : DoOutcome :=
  match r.err with
  | some e => { response := none, error := some e, transportCalls := 0 }
  | none =>
    let cl := r.client.getD d
    match cl r.request with
    | .error e => { response := none, error := some e, transportCalls := 1 }
    | .ok resp =>
      match r.onResponseCheck with
      | some check =>
        match check resp with
        | some e => { response := none, error := some e, transportCalls := 1 }
        | none => { response := some ⟨resp⟩, error := none, transportCalls := 1 }
      | none => { response := some ⟨resp⟩, error := none, transportCalls := 1 }

/-- The stream decode step of `ParseJson` (hyper.go:49):
`json.NewDecoder(r.Body).Decode(i)` — a failure to read the stream surfaces
as the decode error, otherwise the abstract `unmarshal` (standing for the
JSON decoder) is applied to the content. -/
def decodeInto {V : Type} (unmarshal : String → Except Err V) (b : BodyStream) : Except Err V :=
  match b.content with
  | .error e => .error e
  | .ok s => unmarshal s

/-- `Response.ParseJson` (hyper.go:48-54).  Returns the `error` result paired
with what was written into the caller's destination (`some v` exactly when
the decode succeeded).  A decode error is returned at once; only on decode
success is the body closed and the close result returned. -/
def Response.ParseJson {V : Type} (unmarshal : String → Except Err V) (r : Response) :
    Option Err × Option V :=
  match decodeInto unmarshal r.resp.body with
  | .error e => (some e, none)
  | .ok v => (r.resp.body.closeErr, some v)

/-- The failure branch of `DoAndParseJson` (hyper.go:161-170): with a
response in hand, read its whole body and embed the text (or the read error)
in the message; with no response, report only the original error. -/
def doFailureMessage (e : Err) (respOpt : Option Response) : Err :=
  match respOpt with
  | some resp =>
    match resp.resp.body.content with
    | .error e2 => "error: " ++ e ++ ", content=" ++ e2
    | .ok raw => "error: " ++ e ++ ", content=" ++ raw
  | none => "error: " ++ e

/-- `DoAndParseJson` (hyper.go:159-173).  On `Do` failure the destination is
left untouched; on success the response is parsed.  (The `none, none` case is
unreachable: `Do` returns a response whenever its error is nil — Go would
nil-dereference there.) -/
def Request.DoAndParseJson {V : Type} (d : Clienter) (unmarshal : String → Except Err V)
    (r : Request) : Option Err × Option V :=
  let out := r.Do d
  match out.error with
  | some e => (some (doFailureMessage e out.response), none)
  | none =>
    match out.response with
    | some resp => resp.ParseJson unmarshal
    | none => (none, none)

/-!
Heap model for clone independence (claim C7).  In Go the builder holds a
pointer to a mutable `http.Request` whose `Header` map `SetHeader` mutates in
place; `CloneWithContext` calls `http.Request.Clone`, which allocates a new
request with a deep-copied header map (net/http documentation).  To make that
aliasing structure visible, the mutable requests live in an explicit heap (a
list of `HttpRequest` cells) and a builder holds the index of its cell.
Cloning allocates a fresh cell holding a copy; had `CloneWithContext` instead
shared `r.request`, the clone would keep the same index and the independence
theorem below would be false.
-/

/-- The heap of live `http.Request` objects. -/
structure Heap where
  reqs : List HttpRequest

/-- A builder seen as a reference: the index of its `http.Request` cell in
the heap, plus its own (per-builder, unshared) deferred error field.  The
remaining builder fields (`client`, `onResponseCheck`) are plain values and
never shared, so they are omitted from the heap model. -/
structure BRequest where
  reqRef : Nat
  err : Option Err

/-- In-place update of the heap cell at index `i`. -/
def updateReqs : List HttpRequest → Nat → (HttpRequest → HttpRequest) → List HttpRequest
  | [], _, _ => []
  | q :: qs, 0, f => f q :: qs
  | q :: qs, n + 1, f => q :: updateReqs qs n f

/-- `SetHeader` (hyper.go:99-113) against the heap: zero values only touches
the builder's own error field; otherwise the builder's request cell is
mutated in place with the replace-then-append header update. -/
def heapSetHeader (h : Heap) (b : BRequest) (key : String) (values : List String) :
    Heap × BRequest :=
  match values with
  | [] => (h, { b with err := some ("missing values for set header \"" ++ key ++ "\"") })
  | v :: vs =>
      (⟨updateReqs h.reqs b.reqRef
          (fun q => { q with header := applyHeaderValues q.header key v vs })⟩, b)

/-- `CloneWithContext` (hyper.go:204-210) against the heap:
`r.request.Clone(ctx)` allocates a fresh cell holding a deep copy of the
request rebound to `ctx`; the clone carries the same deferred error. -/
def heapCloneWithContext (h : Heap) (b : BRequest) (ctx : Ctx) : Heap × BRequest :=
  let cloned :=
    match h.reqs[b.reqRef]? with
    | some q => cloneHttpRequest q ctx
    | none => default
  (⟨h.reqs ++ [cloned]⟩, { reqRef := h.reqs.length, err := b.err })

/-- `Clone` (hyper.go:200-202) against the heap: clone rebound to the
request's current context. -/
def heapClone (h : Heap) (b : BRequest) : Heap × BRequest :=
  heapCloneWithContext h b
    (match h.reqs[b.reqRef]? with
     | some q => q.ctx
     | none => 0)

/-! Concrete fixtures used to instantiate the theorems below. -/

/-- A transport that echoes the request body back as the response body. -/
def echoClient : Clienter := fun req =>
  .ok { statusCode := 200, status := "200 OK",
        body := req.body.getD { content := .ok "", closeErr := none } }

/-- A transport that always fails; also stands in for the default client. -/
def stubClient : Clienter := fun _ => .error "no network"

/-- A fixed 404 response with a readable body. -/
def notFoundResponse : HttpResponse :=
  { statusCode := 404, status := "404 Not Found",
    body := { content := .ok "nope", closeErr := none } }

/-- A transport that returns `notFoundResponse`. -/
def notFoundClient : Clienter := fun _ => .ok notFoundResponse

/-- A builder with the 404 transport injected and the `Check200` hook set. -/
def hookedBuilder : Request := (New.SetClient notFoundClient).OnResponseCheck Check200

/-- A builder whose configuration already failed with a deferred error. -/
def exampleFailed : Request := { New with err := some "boom" }

/-- A concrete JSON codec on `Nat` (decimal text), standing in for
`json.Marshal` in witnesses. -/
def marshalNat : Nat → Except Err String := fun n => .ok (toString n)

/-- Decimal digit value of a character, if any. -/
def digOf (c : Char) : Option Nat :=
  if c = '0' then some 0 else if c = '1' then some 1 else if c = '2' then some 2
  else if c = '3' then some 3 else if c = '4' then some 4 else if c = '5' then some 5
  else if c = '6' then some 6 else if c = '7' then some 7 else if c = '8' then some 8
  else if c = '9' then some 9 else none

/-- Accumulating decimal parse over a character list. -/
def natOfCharsAux : List Char → Nat → Option Nat
  | [], acc => some acc
  | c :: cs, acc =>
    match digOf c with
    | some d => natOfCharsAux cs (acc * 10 + d)
    | none => none

/-- Decimal parse of a non-empty character list. -/
def natOfChars : List Char → Option Nat
  | [] => none
  | cs => natOfCharsAux cs 0

/-- The matching decoder, standing in for `json.Unmarshal` in witnesses. -/
def unmarshalNat : String → Except Err Nat := fun s =>
  match natOfChars s.toList with
  | some n => .ok n
  | none => .error "invalid JSON"

/-- An empty well-behaved body stream. -/
def bodyA : BodyStream := { content := .ok "", closeErr := none }

/-- A response whose body is not valid JSON and whose close fails. -/
def respBadJson : Response :=
  ⟨{ statusCode := 200, status := "200 OK",
     body := { content := .ok "x", closeErr := some "close failed" } }⟩

/-- A response with a decodable body whose close fails. -/
def respGoodJson : Response :=
  ⟨{ statusCode := 200, status := "200 OK",
     body := { content := .ok "7", closeErr := some "close failed" } }⟩

/-- A one-cell heap holding a fresh request. -/
def heap0 : Heap := ⟨[New.request]⟩

/-- The builder reference into `heap0`. -/
def bref0 : BRequest := ⟨0, none⟩

/-- The heap after cloning `bref0` into context 1. -/
def heap1 : Heap := (heapCloneWithContext heap0 bref0 1).1

/-- The clone's builder reference. -/
def bref1 : BRequest := (heapCloneWithContext heap0 bref0 1).2

/-!
Helper lemmas.
-/

/-- A lookup after `headerSet` on the same key sees exactly the one value. -/
theorem headerGet_headerSet (h : Header) (k v : String) :
    headerGet (headerSet h k v) k = [v] := by
  induction h with
  | nil => simp [headerSet, headerGet]
  | cons p rest ih =>
    obtain ⟨k0, vs0⟩ := p
    by_cases hk : k0 = k
    · simp [headerSet, headerGet, hk]
    · simp [headerSet, headerGet, hk, ih]

/-- A lookup after `headerAdd` on the same key sees the value appended. -/
theorem headerGet_headerAdd (h : Header) (k v : String) :
    headerGet (headerAdd h k v) k = headerGet h k ++ [v] := by
  induction h with
  | nil => simp [headerAdd, headerGet]
  | cons p rest ih =>
    obtain ⟨k0, vs0⟩ := p
    by_cases hk : k0 = k
    · simp [headerAdd, headerGet, hk]
    · simp [headerAdd, headerGet, hk, ih]

/-- Folding `headerAdd` over a list of values appends them all. -/
theorem headerGet_foldl_headerAdd (vs : List String) (h : Header) (k : String) :
    headerGet (vs.foldl (fun acc v2 => headerAdd acc k v2) h) k = headerGet h k ++ vs := by
  induction vs generalizing h with
  | nil => simp
  | cons v rest ih =>
    simp only [List.foldl_cons]
    rw [ih, headerGet_headerAdd]
    simp

/-- The replace-then-append loop of `SetHeader` stores exactly the supplied
values, in order. -/
theorem headerGet_applyHeaderValues (h : Header) (k v : String) (vs : List String) :
    headerGet (applyHeaderValues h k v vs) k = v :: vs := by
  unfold applyHeaderValues
  rw [headerGet_foldl_headerAdd, headerGet_headerSet]
  simp

/-- `updateReqs` leaves all other heap cells untouched. -/
theorem updateReqs_getElem_ne (l : List HttpRequest) (i j : Nat)
    (f : HttpRequest → HttpRequest) (hij : j ≠ i) :
    (updateReqs l i f)[j]? = l[j]? := by
  induction l generalizing i j with
  | nil => simp [updateReqs]
  | cons q qs ih =>
    cases i with
    | zero =>
      cases j with
      | zero => exact absurd rfl hij
      | succ j => simp [updateReqs]
    | succ i =>
      cases j with
      | zero => simp [updateReqs]
      | succ j => simpa [updateReqs] using ih i j (by omega)

/-- `Do` never pairs a non-nil error with a non-nil response: every failing
branch of hyper.go:175-193 returns a nil response. -/
theorem doError_response_none (d : Clienter) (r : Request) (e : Err)
    (h : (r.Do d).error = some e) : (r.Do d).response = none := by
  unfold Request.Do at h ⊢
  cases hr : r.err with
  | some e0 => simp [hr]
  | none =>
    simp only [hr] at h ⊢
    cases hc : (r.client.getD d) r.request with
    | error e1 => simp [hc]
    | ok resp =>
      cases ho : r.onResponseCheck with
      | none => simp [hc, ho] at h
      | some check =>
        cases hk : check resp with
        | none => simp [hc, ho, hk] at h
        | some e2 => simp [hc, ho, hk]

/-!
Claim theorems.
-/

/-- Claim C1: for every builder whose deferred error is non-nil, `Do` returns
a nil response together with exactly that stored error, and the transport is
never invoked (neither the injected client nor the default client `d`). -/
theorem do_deferred_error_skips_transport (d : Clienter) (r : Request) (e : Err)
    (h : r.err = some e) :
    r.Do d = { response := none, error := some e, transportCalls := 0 } := by
  unfold Request.Do
  simp [h]

/-- Witness for C1: a builder carrying the deferred error "boom" fails with
exactly it, with zero transport calls. -/
theorem do_deferred_error_skips_transport_witness :
    exampleFailed.Do stubClient =
      { response := none, error := some "boom", transportCalls := 0 } :=
  do_deferred_error_skips_transport stubClient exampleFailed "boom" rfl

/-- Claim C2: when the transport succeeds and the response-validation hook
returns a non-nil error `e`, `Do` returns exactly `e` and a nil response, so
the caller cannot access the response. -/
theorem do_hook_error_discards_response (d : Clienter) (r : Request)
    (f : HttpResponse → Option Err) (resp : HttpResponse) (e : Err)
    (he : r.err = none) (hc : (r.client.getD d) r.request = .ok resp)
    (hf : r.onResponseCheck = some f) (hfe : f resp = some e) :
    r.Do d = { response := none, error := some e, transportCalls := 1 } := by
  unfold Request.Do
  simp [he, hc, hf, hfe]

/-- Witness for C2: a builder with the `Check200` hook against a transport
answering 404 fails with the hook's error and a nil response. -/
theorem do_hook_error_discards_response_witness :
    hookedBuilder.Do stubClient =
      { response := none, error := some "[404] 404 Not Found", transportCalls := 1 } :=
  do_hook_error_discards_response stubClient hookedBuilder Check200 notFoundResponse
    "[404] 404 Not Found" rfl rfl rfl (by decide)

/-- Claim C3: when the execution step inside `DoAndParseJson` fails, the
destination is never decoded into; the response is in fact never available on
failure (`Do` returns nil alongside every error), so the body-enrichment
branch is unreachable and the error falls back to describing only the
original failure, as `error: <e>`. -/
theorem doAndParseJson_failure_behavior {V : Type} (d : Clienter)
    (unmarshal : String → Except Err V) (r : Request) (e : Err)
    (h : (r.Do d).error = some e) :
    (r.DoAndParseJson d unmarshal).2 = none ∧
    (r.Do d).response = none ∧
    (r.DoAndParseJson d unmarshal).1 = some ("error: " ++ e) := by
  have hn := doError_response_none d r e h
  unfold Request.DoAndParseJson
  simp [h, hn, doFailureMessage]

/-- Witness for C3: the failed builder's combined call leaves the destination
untouched and reports only the original error. -/
theorem doAndParseJson_failure_behavior_witness :
    (exampleFailed.DoAndParseJson stubClient unmarshalNat).2 = none ∧
    (exampleFailed.Do stubClient).response = none ∧
    (exampleFailed.DoAndParseJson stubClient unmarshalNat).1 = some "error: boom" :=
  doAndParseJson_failure_behavior stubClient unmarshalNat exampleFailed "boom" rfl

/-- Claim C8: with a nil request URL, `SetQueryParam` records the deferred
"cannot add query param to nil url" error and leaves the underlying request
(URL included) completely unchanged. -/
theorem setQueryParam_nil_url (r : Request) (k v : String)
    (h : r.request.url = none) :
    (r.SetQueryParam k v).err = some "cannot add query param to nil url" ∧
    (r.SetQueryParam k v).request = r.request := by
  unfold Request.SetQueryParam
  simp [h]

/-- Witness for C8: a fresh builder has no URL, so adding a query parameter
defers the nil-url error and changes nothing else. -/
theorem setQueryParam_nil_url_witness :
    (New.SetQueryParam "k" "v").err = some "cannot add query param to nil url" ∧
    (New.SetQueryParam "k" "v").request = New.request :=
  setQueryParam_nil_url New "k" "v" rfl

/-- Claim C10: `ParseJson` returns the decode error whenever decoding fails
(the close error can never mask it), and only on decode success does it
return the result of closing the body. -/
theorem parseJson_decode_then_close {V : Type} (unmarshal : String → Except Err V)
    (r : Response) :
    (∀ e, decodeInto unmarshal r.resp.body = .error e →
        r.ParseJson unmarshal = (some e, none)) ∧
    (∀ v, decodeInto unmarshal r.resp.body = .ok v →
        r.ParseJson unmarshal = (r.resp.body.closeErr, some v)) := by
  constructor
  · intro e he
    unfold Response.ParseJson
    rw [he]
  · intro v hv
    unfold Response.ParseJson
    rw [hv]

/-- Witness for C10: on a body that is not valid JSON the decode error is
returned even though closing would also fail; on a decodable body the close
failure surfaces only after the successful decode. -/
theorem parseJson_decode_then_close_witness :
    respBadJson.ParseJson unmarshalNat = (some "invalid JSON", none) ∧
    respGoodJson.ParseJson unmarshalNat = (some "close failed", some 7) :=
  ⟨(parseJson_decode_then_close unmarshalNat respBadJson).1 "invalid JSON" (by decide),
   (parseJson_decode_then_close unmarshalNat respGoodJson).2 7 (by decide)⟩

/-- Claim C4 (counterexample): the claim says a subsequent `SetHeader` call
for the same key appends, but a second call replaces — after setting "K" to
"a" and then to "b", the stored values are ["b"], not ["a", "b"]. -/
theorem setHeader_second_call_replaces :
    headerGet (((New.SetHeader "K" ["a"]).SetHeader "K" ["b"]).request.header) "K" = ["b"] ∧
    headerGet (((New.SetHeader "K" ["a"]).SetHeader "K" ["b"]).request.header) "K" ≠ ["a", "b"] := by
  decide

/-- Claim C4 (amended): within one `SetHeader` call the first value replaces
every prior value for the key — including values from earlier calls — and
each additional value of the same call appends; zero values records the
deferred error naming the key and leaves the request untouched. -/
theorem setHeader_replace_append (r : Request) (k v : String) (vs : List String) :
    headerGet ((r.SetHeader k (v :: vs)).request.header) k = v :: vs ∧
    (r.SetHeader k (v :: vs)).err = r.err ∧
    (r.SetHeader k []).err = some ("missing values for set header \"" ++ k ++ "\"") ∧
    (r.SetHeader k []).request = r.request :=
  ⟨headerGet_applyHeaderValues r.request.header k v vs, rfl, rfl, rfl⟩

/-- Claim C5: building with `Json v`, executing against an echoing transport
and decoding with `ParseJson` round-trips: provided the JSON codec round-trips
on `v` (it is external to hyper), the decoded value is `v` again. -/
theorem json_echo_roundtrip {V : Type} (marshal : V → Except Err String)
    (unmarshal : String → Except Err V) (v : V) (s : String) (d : Clienter)
    (h1 : marshal v = .ok s) (h2 : unmarshal s = .ok v) :
    (((New.Json marshal v).SetClient echoClient).Do d).error = none ∧
    (((New.Json marshal v).SetClient echoClient).Do d).response.map
        (fun resp => resp.ParseJson unmarshal) = some (none, some v) := by
  have hb : New.Json marshal v =
      { client := none
        request := { method := "", url := none,
                     header := [("content-type", ["application/json"])],
                     body := some { content := .ok s, closeErr := none }, ctx := 0 }
        err := none
        onResponseCheck := none } := by
    unfold Request.Json
    rw [h1]
    rfl
  rw [hb]
  simp [Request.SetClient, Request.Do, echoClient, Response.ParseJson, decodeInto, h2]

/-- Witness for C5: the decimal codec on `Nat` round-trips 7 through the
builder, the echo transport and the decoder. -/
theorem json_echo_roundtrip_witness :
    (((New.Json marshalNat 7).SetClient echoClient).Do stubClient).error = none ∧
    (((New.Json marshalNat 7).SetClient echoClient).Do stubClient).response.map
        (fun resp => resp.ParseJson unmarshalNat) = some (none, some 7) :=
  json_echo_roundtrip marshalNat unmarshalNat 7 "7" stubClient (by decide) (by decide)

/-- Claim C6: `Clone` and `CloneWithContext` do not carry the
response-validation hook over — the clone's hook is nil — so executing the
clone performs no validation even where executing the original would fail. -/
theorem clone_drops_response_hook (r : Request) (ctx : Ctx)
    (f : HttpResponse → Option Err) (hf : r.onResponseCheck = some f) :
    (r.CloneWithContext ctx).onResponseCheck = none ∧
    r.Clone.onResponseCheck = none ∧
    (∀ d resp e, f resp = some e → r.err = none →
      (((r.CloneWithContext ctx).SetClient (fun _ => .ok resp)).Do d).error = none ∧
      ((r.SetClient (fun _ => .ok resp)).Do d).error = some e) := by
  refine ⟨rfl, rfl, ?_⟩
  intro d resp e hfe he
  constructor
  · unfold Request.Do
    simp [Request.SetClient, Request.CloneWithContext, he]
  · unfold Request.Do
    simp [Request.SetClient, he, hf, hfe]

/-- Witness for C6: the `Check200`-hooked builder's clone has no hook, and
with a transport answering 404 the clone's `Do` succeeds while the
original's fails with the hook's error. -/
theorem clone_drops_response_hook_witness :
    (hookedBuilder.CloneWithContext 5).onResponseCheck = none ∧
    hookedBuilder.Clone.onResponseCheck = none ∧
    (((hookedBuilder.CloneWithContext 5).SetClient
        (fun _ => .ok notFoundResponse)).Do stubClient).error = none ∧
    ((hookedBuilder.SetClient
        (fun _ => .ok notFoundResponse)).Do stubClient).error = some "[404] 404 Not Found" := by
  obtain ⟨h1, h2, h3⟩ := clone_drops_response_hook hookedBuilder 5 Check200 rfl
  obtain ⟨h4, h5⟩ := h3 stubClient notFoundResponse "[404] 404 Not Found" (by decide) rfl
  exact ⟨h1, h2, h4, h5⟩

/-- Claim C7: cloning allocates an independent request cell, so `SetHeader`
on the original leaves the clone's heap cell (headers included) exactly as it
was, and vice versa. -/
theorem clone_header_independence (h : Heap) (b : BRequest) (ctx : Ctx) (k : String)
    (vs : List String) (hb : b.reqRef < h.reqs.length)
    (hc : Heap) (cln : BRequest) (hclone : heapCloneWithContext h b ctx = (hc, cln)) :
    cln.reqRef ≠ b.reqRef ∧
    (heapSetHeader hc b k vs).1.reqs[cln.reqRef]? = hc.reqs[cln.reqRef]? ∧
    (heapSetHeader hc cln k vs).1.reqs[b.reqRef]? = hc.reqs[b.reqRef]? := by
  have hcl : cln.reqRef = h.reqs.length := by
    have hp := congrArg (fun p => p.2.reqRef) hclone
    simpa [heapCloneWithContext] using hp.symm
  have hne : cln.reqRef ≠ b.reqRef := by omega
  refine ⟨hne, ?_, ?_⟩
  · cases vs with
    | nil => rfl
    | cons v rest =>
      simp only [heapSetHeader]
      exact updateReqs_getElem_ne hc.reqs b.reqRef cln.reqRef _ hne
  · cases vs with
    | nil => rfl
    | cons v rest =>
      simp only [heapSetHeader]
      exact updateReqs_getElem_ne hc.reqs cln.reqRef b.reqRef _ (by omega)

/-- Witness for C7: in a one-cell heap, the clone lives in a fresh cell and
setting a header through either builder leaves the other's cell unchanged. -/
theorem clone_header_independence_witness :
    bref1.reqRef ≠ bref0.reqRef ∧
    (heapSetHeader heap1 bref0 "K" ["v"]).1.reqs[bref1.reqRef]? = heap1.reqs[bref1.reqRef]? ∧
    (heapSetHeader heap1 bref1 "K" ["v"]).1.reqs[bref0.reqRef]? = heap1.reqs[bref0.reqRef]? :=
  clone_header_independence heap0 bref0 1 "K" ["v"] (by decide) heap1 bref1 rfl

/-- Claim C9: the deferred error is sticky — no configuration operation ever
resets a non-nil stored error back to nil; each either preserves it or
overwrites it with another non-nil error. -/
theorem deferred_error_sticky {V : Type} (r : Request) (e : Err) (h : r.err = some e)
    (k v u : String) (vs : List String) (c : Clienter) (b : BodyStream)
    (marshal : V → Except Err String) (x : V) (ctx : Ctx)
    (f : HttpResponse → Option Err) :
    r.Get.err ≠ none ∧ r.Post.err ≠ none ∧ r.Delete.err ≠ none ∧
    r.Put.err ≠ none ∧ r.Patch.err ≠ none ∧ r.Options.err ≠ none ∧
    (r.Url u).err ≠ none ∧ (r.SetHeader k vs).err ≠ none ∧
    (r.SetQueryParam k v).err ≠ none ∧ (r.Body b).err ≠ none ∧
    (r.Json marshal x).err ≠ none ∧ (r.SetClient c).err ≠ none ∧
    (r.Context ctx).err ≠ none ∧ (r.OnResponseCheck f).err ≠ none ∧
    r.Clone.err ≠ none ∧ (r.CloneWithContext ctx).err ≠ none := by
  refine ⟨by simp [Request.Get, h], by simp [Request.Post, h], by simp [Request.Delete, h],
    by simp [Request.Put, h], by simp [Request.Patch, h], by simp [Request.Options, h],
    ?_, ?_, ?_, by simp [Request.Body, h], ?_, by simp [Request.SetClient, h],
    by simp [Request.Context, h], by simp [Request.OnResponseCheck, h],
    by simp [Request.Clone, Request.CloneWithContext, h], by simp [Request.CloneWithContext, h]⟩
  · unfold Request.Url
    cases urlParse u <;> simp [h]
  · unfold Request.SetHeader
    cases vs <;> simp [h]
  · unfold Request.SetQueryParam
    cases r.request.url <;> simp [h]
  · unfold Request.Json Request.SetHeader
    cases marshal x <;> simp [h]

/-- Witness for C9: every operation applied to the already-failed builder
leaves it failed. -/
theorem deferred_error_sticky_witness :
    exampleFailed.Get.err ≠ none ∧ exampleFailed.Post.err ≠ none ∧
    exampleFailed.Delete.err ≠ none ∧ exampleFailed.Put.err ≠ none ∧
    exampleFailed.Patch.err ≠ none ∧ exampleFailed.Options.err ≠ none ∧
    (exampleFailed.Url "http://x").err ≠ none ∧
    (exampleFailed.SetHeader "K" ["a"]).err ≠ none ∧
    (exampleFailed.SetQueryParam "K" "v").err ≠ none ∧
    (exampleFailed.Body bodyA).err ≠ none ∧
    (exampleFailed.Json marshalNat 3).err ≠ none ∧
    (exampleFailed.SetClient stubClient).err ≠ none ∧
    (exampleFailed.Context 7).err ≠ none ∧
    (exampleFailed.OnResponseCheck Check200).err ≠ none ∧
    exampleFailed.Clone.err ≠ none ∧ (exampleFailed.CloneWithContext 7).err ≠ none :=
  deferred_error_sticky (V := Nat) exampleFailed "boom" rfl "K" "v" "http://x" ["a"]
    stubClient bodyA marshalNat 3 7 Check200
